import Mathlib

/-!
Verification development for the qBraid transpiler: a shallow embedding of
the quantum-program wrapper facade (wrapper_abc.py), the QASM gate emission
rules (transpiler2/interface/cirq_qasm_gates.py), the benchmarking harness
(tests/benchmarking/qiskit_to_braket.py), and the gate unitaries involved in
the Cirq-to-Braket conversion scenarios.
-/

namespace Qbraid

/-! ## Program wrapper and transpile (wrapper_abc.py) -/

/-- The record of which conversion helpers a call to transpile invoked:
the importer is convert_to_cirq, the exporter is convert_from_cirq. -/
inductive ConvCall where
  | importer
  | exporter
deriving DecidableEq

/-- Embedding of QuantumProgramWrapper: the wrapped program together with
the metadata fields computed at wrap time.  The program type is a type
parameter since QPROGRAM is a union of framework program types. -/
structure QuantumProgramWrapper (α : Type) where
  program : α
  qubits : List Nat
  num_qubits : Nat
  num_clbits : Nat
  depth : Nat
  params : List (Nat × String)
  input_param_mapping : List (String × Nat)
  package : String
deriving DecidableEq

/-- The errors transpile can raise.  Each constructor carries the data the
corresponding Python error message interpolates: the to-cirq conversion
error names the source program type, embeds the whole source program and
the supported-types list, and wraps the underlying cause; the from-cirq
conversion error names the target type and wraps the cause; the
unsupported-program error names the requested target type and the
supported-types list. -/
inductive TranspileError (α ε : Type) where
  | circuitConversionToCirq (sourceProgramType : String) (sourceProgram : α)
      (supportedTypes : List String) (cause : ε)
  | circuitConversionFromCirq (targetType : String) (cause : ε)
  | unsupportedProgram (targetType : String) (supportedTypes : List String)
deriving DecidableEq

/-- Embedding of QuantumProgramWrapper.transpile.  The helpers
convert_to_cirq (returning the cirq circuit and the detected input type) and
convert_from_cirq are passed as arguments, as is the set
SUPPORTED_PROGRAM_TYPES and the function giving a program's type name; a
Python exception in a helper is modelled by an Except.error result.  The
embedding returns the transpile result, the wrapper's field state after the
call (the method body contains no attribute assignment, so every branch
returns the input wrapper), and the list of helper calls made. -/
def transpile {α γ ε : Type} (convert_to_cirq : α → Except ε (γ × String))
    (convert_from_cirq : γ → String → Except ε α)
    (supported_program_types : List String)
    (program_type_name : α → String)
    (w : QuantumProgramWrapper α) (conversion_type : String) :
    Except (TranspileError α ε) α × QuantumProgramWrapper α × List ConvCall :=
  if conversion_type = w.package then
    (Except.ok w.program, w, [])
  else if conversion_type ∈ supported_program_types then
    match convert_to_cirq w.program with
    | Except.error err =>
        (Except.error (TranspileError.circuitConversionToCirq
            (program_type_name w.program) w.program supported_program_types err),
          w, [ConvCall.importer])
    | Except.ok (cirq_circuit, _) =>
        match convert_from_cirq cirq_circuit conversion_type with
        | Except.error err =>
            (Except.error (TranspileError.circuitConversionFromCirq conversion_type err),
              w, [ConvCall.importer, ConvCall.exporter])
        | Except.ok converted_program =>
            (Except.ok converted_program, w, [ConvCall.importer, ConvCall.exporter])
  else
    (Except.error (TranspileError.unsupportedProgram conversion_type supported_program_types),
      w, [])

/-! ## QASM emission for ZPowGate (transpiler2/interface/cirq_qasm_gates.py) -/

/-- The possible QASM 2.0 instructions that the overridden ZPowGate qasm
method emits for a single qubit: the five named fixed-angle gates, the
parametric phase gate p, and the parametric rotation rz.  The parametric
constructors carry the gate exponent (the emitted angle is that exponent in
half turns). -/
inductive QasmZGate where
  | t
  | tdg
  | s
  | sdg
  | z
  | p (exponent : ℚ)
  | rz (exponent : ℚ)
deriving DecidableEq

/-- Embedding of the overridden ZPowGate qasm method: the choice of emitted
instruction as a function of the gate's global shift and exponent.  Float
values are modelled as rationals (every finite float is rational, and the
well-known constants 0.25, 0.5, 1 are exact in binary floating point). -/
def zpow_qasm (global_shift exponent : ℚ) : QasmZGate :=
  if global_shift = 0 then
    if exponent = 1/4 then QasmZGate.t
    else if exponent = -(1/4) then QasmZGate.tdg
    else if exponent = 1/2 then QasmZGate.s
    else if exponent = -(1/2) then QasmZGate.sdg
    else if exponent = 1 then QasmZGate.z
    else QasmZGate.p exponent
  else QasmZGate.rz exponent

/-- Whether an emitted QASM instruction is one of the named fixed-angle
gates t, tdg, s, sdg, z. -/
def QasmZGate.isNamed : QasmZGate → Bool
  | QasmZGate.t => true
  | QasmZGate.tdg => true
  | QasmZGate.s => true
  | QasmZGate.sdg => true
  | QasmZGate.z => true
  | _ => false

/-! ## Benchmarking harness (transpiler/tests/benchmarking/qiskit_to_braket.py) -/

/-- Embedding of execute_test.  The conversion function and the
circuits_allclose check are passed as arguments; either may raise, which is
modelled by an Except.error result, and the try block covers both calls.
The Boolean argument passed to the allclose check is the strict_gphase
flag, which execute_test fixes to false. -/
def execute_test {α β ε : Type} (conversion_function : α → Except ε β)
    (circuits_allclose : α → β → Bool → Except ε Bool)
    (qiskit_circuit : α) : Nat :=
  match conversion_function qiskit_circuit with
  | Except.error _ => 1
  | Except.ok braket_circuit =>
    match circuits_allclose qiskit_circuit braket_circuit false with
    | Except.error _ => 1
    | Except.ok ok => if ok then 0 else 1

/-! ## Gate unitaries from transpiler2/interface/cirq_qasm_gates.py -/

/-- Embedding of the RZZGate unitary method: with itheta2 = i * theta / 2
the matrix is diag(exp(-itheta2), exp(itheta2), exp(itheta2),
exp(-itheta2)). -/
noncomputable def RZZGate_unitary (theta : ℝ) : Matrix (Fin 4) (Fin 4) ℂ :=
  !![Complex.exp (-(Complex.I * theta / 2)), 0, 0, 0;
     0, Complex.exp (Complex.I * theta / 2), 0, 0;
     0, 0, Complex.exp (Complex.I * theta / 2), 0;
     0, 0, 0, Complex.exp (-(Complex.I * theta / 2))]

/-- Unitary of the cirq library gate IdentityGate(2): the 4 by 4 identity
matrix (external library semantics used by the rzz factory). -/
def IdentityGate2_unitary : Matrix (Fin 4) (Fin 4) ℂ := 1

/-- Unitary of the cirq library gate TwoQubitDiagonalGate with the given
diagonal angles in radians: diagonal phases exp(i * angle) (external
library semantics used by the rzz factory). -/
noncomputable def TwoQubitDiagonalGate_unitary (d : Fin 4 → ℝ) :
    Matrix (Fin 4) (Fin 4) ℂ :=
  Matrix.diagonal fun k => Complex.exp (Complex.I * d k)

open Classical in
/-- Embedding of the rzz factory function at the level of unitaries: theta
equal to 0 yields IdentityGate(2), theta equal to 2 pi yields
TwoQubitDiagonalGate([pi, pi, pi, pi]), every other theta yields
RZZGate(theta). -/
noncomputable def rzz_unitary (theta : ℝ) : Matrix (Fin 4) (Fin 4) ℂ :=
  if theta = 0 then IdentityGate2_unitary
  else if theta = 2 * Real.pi then
    TwoQubitDiagonalGate_unitary ![Real.pi, Real.pi, Real.pi, Real.pi]
  else RZZGate_unitary theta

/-! ## Cirq-to-Braket conversion scenarios

The converter convert_to_braket and the interface helpers to_unitary and
equal_unitaries are exercised by the tests in src but their definitions are
not part of src, so they are modelled from the spec below, with each
modelled definition marked in its doc comment. -/

/-- Source-framework operations of the 2-qubit Bell scenario: Hadamard and
CNOT on framework-native qubit objects of an arbitrary type. -/
inductive SrcOp (α : Type) where
  | h (q : α)
  | cnot (control target : α)

/-- Canonical-model gates of the 2-qubit scenario: qubits are integer
indices. -/
inductive CanonGate where
  | h (q : Nat)
  | cnot (control target : Nat)
deriving DecidableEq

/-- Modelled from the spec: the importer's lazily created qubit map, where
the first-seen native qubit gets index 0, then 1, 2, and so on.  Looks up
a native qubit among those already seen, returning its index and the
updated seen list. -/
def qindex {α : Type} [DecidableEq α] : List α → α → Nat × List α
  | [], q => (0, [q])
  | x :: xs, q =>
    if x = q then (0, x :: xs)
    else
      let r := qindex xs q
      (r.1 + 1, x :: r.2)

/-- Modelled from the spec: the Front-End Importer whose implementation is
missing from src (the convert_to_cirq conversion path): iterate source
operations in program order, resolving native qubit references to indices
through the first-seen qubit map. -/
def frontend_import {α : Type} [DecidableEq α] :
    List (SrcOp α) → List α → List CanonGate × List α
  | [], seen => ([], seen)
  | SrcOp.h q :: rest, seen =>
    let rq := qindex seen q
    let rr := frontend_import rest rq.2
    (CanonGate.h rq.1 :: rr.1, rr.2)
  | SrcOp.cnot a b :: rest, seen =>
    let ra := qindex seen a
    let rb := qindex ra.2 b
    let rr := frontend_import rest rb.2
    (CanonGate.cnot ra.1 rb.1 :: rr.1, rr.2)

/-- Braket instructions of the 2-qubit scenario. -/
inductive BraketGate where
  | h (q : Nat)
  | cnot (control target : Nat)
deriving DecidableEq

/-- Modelled from the spec: the Back-End Exporter to Braket whose
implementation (convert_to_braket) is missing from src.  Hadamard and CNOT
have direct native Braket equivalents, so each canonical gate maps
one-to-one to the native gate on the same qubit indices. -/
def to_braket_gate : CanonGate → BraketGate
  | CanonGate.h q => BraketGate.h q
  | CanonGate.cnot a b => BraketGate.cnot a b

/-- Modelled from the spec: conversion of a whole canonical circuit to a
Braket program, gate by gate in program order. -/
def to_braket (c : List CanonGate) : List BraketGate :=
  c.map to_braket_gate

/-- The source Bell-preparation circuit H(q0); CNOT(q0, q1) on two native
qubit objects. -/
def bell_circuit {α : Type} (q0 q1 : α) : List (SrcOp α) :=
  [SrcOp.h q0, SrcOp.cnot q0 q1]

/-- The isqrt2 constant of the U2Gate unitary method. -/
noncomputable def isqrt2 : ℝ := 1 / Real.sqrt 2

/-- Embedding of the U2Gate unitary method. -/
noncomputable def U2Gate_unitary (phi lam : ℝ) : Matrix (Fin 2) (Fin 2) ℂ :=
  !![(isqrt2 : ℂ), -Complex.exp (Complex.I * lam) * (isqrt2 : ℂ);
     Complex.exp (Complex.I * phi) * (isqrt2 : ℂ),
     Complex.exp (Complex.I * (phi + lam)) * (isqrt2 : ℂ)]

/-- Embedding of the U3Gate unitary method, with cos = cos(theta/2) and
sin = sin(theta/2). -/
noncomputable def U3Gate_unitary (theta phi lam : ℝ) : Matrix (Fin 2) (Fin 2) ℂ :=
  !![(Real.cos (theta / 2) : ℂ),
     -Complex.exp (Complex.I * lam) * (Real.sin (theta / 2) : ℂ);
     Complex.exp (Complex.I * phi) * (Real.sin (theta / 2) : ℂ),
     Complex.exp (Complex.I * (phi + lam)) * (Real.cos (theta / 2) : ℂ)]

/-- The Hadamard unitary (1/sqrt 2) [[1, 1], [1, -1]]. -/
noncomputable def H_M : Matrix (Fin 2) (Fin 2) ℂ :=
  (isqrt2 : ℂ) • !![1, 1; 1, -1]

/-- Kronecker product of two single-qubit matrices on the 2-qubit index
space, with qubit 0 the most significant bit of the basis-state index. -/
def kron2 (A B : Matrix (Fin 2) (Fin 2) ℂ) : Matrix (Fin 4) (Fin 4) ℂ :=
  Matrix.of fun i j =>
    A ⟨i.val / 2, by have h := i.isLt; omega⟩ ⟨j.val / 2, by have h := j.isLt; omega⟩
      * B ⟨i.val % 2, by have h := i.isLt; omega⟩ ⟨j.val % 2, by have h := j.isLt; omega⟩

/-- CNOT with control qubit 0 and target qubit 1 (qubit 0 most
significant). -/
def CNOT_M : Matrix (Fin 4) (Fin 4) ℂ :=
  !![1, 0, 0, 0; 0, 1, 0, 0; 0, 0, 0, 1; 0, 0, 1, 0]

/-- CNOT with control qubit 1 and target qubit 0 (qubit 0 most
significant). -/
def CNOT10_M : Matrix (Fin 4) (Fin 4) ℂ :=
  !![1, 0, 0, 0; 0, 0, 0, 1; 0, 0, 1, 0; 0, 1, 0, 0]

/-- Modelled from the spec: the Equivalence Oracle's gate unitary on the
2-qubit state space, missing from src (the to_unitary interface helper).
The scenario only produces gates on indices 0 and 1; other indices do not
occur and are assigned the identity. -/
noncomputable def canon_gate_unitary : CanonGate → Matrix (Fin 4) (Fin 4) ℂ
  | CanonGate.h 0 => kron2 H_M 1
  | CanonGate.h 1 => kron2 1 H_M
  | CanonGate.cnot 0 1 => CNOT_M
  | CanonGate.cnot 1 0 => CNOT10_M
  | _ => 1

/-- Modelled from the spec: the same gate unitary semantics for the
emitted Braket instructions. -/
noncomputable def braket_gate_unitary : BraketGate → Matrix (Fin 4) (Fin 4) ℂ
  | BraketGate.h 0 => kron2 H_M 1
  | BraketGate.h 1 => kron2 1 H_M
  | BraketGate.cnot 0 1 => CNOT_M
  | BraketGate.cnot 1 0 => CNOT10_M
  | _ => 1

/-- Modelled from the spec: the circuit unitary is the product of the gate
unitaries in application order, each later gate multiplied on the left. -/
noncomputable def canon_circuit_unitary (c : List CanonGate) :
    Matrix (Fin 4) (Fin 4) ℂ :=
  c.foldl (fun u g => canon_gate_unitary g * u) 1

/-- Modelled from the spec: the circuit unitary of an emitted Braket
program. -/
noncomputable def braket_circuit_unitary (c : List BraketGate) :
    Matrix (Fin 4) (Fin 4) ℂ :=
  c.foldl (fun u g => braket_gate_unitary g * u) 1

/-- Rotation about the y axis, the Braket native ry gate. -/
noncomputable def Ry_M (theta : ℝ) : Matrix (Fin 2) (Fin 2) ℂ :=
  !![(Real.cos (theta / 2) : ℂ), -(Real.sin (theta / 2) : ℂ);
     (Real.sin (theta / 2) : ℂ), (Real.cos (theta / 2) : ℂ)]

/-- Rotation about the z axis, the Braket native rz gate. -/
noncomputable def Rz_M (theta : ℝ) : Matrix (Fin 2) (Fin 2) ℂ :=
  !![Complex.exp (-(Complex.I * theta / 2)), 0;
     0, Complex.exp (Complex.I * theta / 2)]

/-- Unitary of the cirq library gate HPowGate with the given exponent
(external library semantics): the eigenvalue-power gate
exp(i pi t / 2) (cos(pi t / 2) I - i sin(pi t / 2) H). -/
noncomputable def HPowGate_unitary (t : ℝ) : Matrix (Fin 2) (Fin 2) ℂ :=
  Complex.exp (Complex.I * (Real.pi * t / 2 : ℝ))
    • ((Real.cos (Real.pi * t / 2) : ℂ) • (1 : Matrix (Fin 2) (Fin 2) ℂ)
        - (Complex.I * (Real.sin (Real.pi * t / 2) : ℝ)) • H_M)

/-- Braket single-qubit instructions of the decomposition scenario. -/
inductive BraketGate1 where
  | ry (theta : ℝ)
  | rz (theta : ℝ)

/-- Unitary of a Braket single-qubit rotation instruction. -/
noncomputable def braket_gate1_unitary : BraketGate1 → Matrix (Fin 2) (Fin 2) ℂ
  | BraketGate1.ry t => Ry_M t
  | BraketGate1.rz t => Rz_M t

/-- Modelled from the spec: the decomposition sequence the exporter emits
for a fractional Hadamard-power gate, which has no direct Braket
equivalent: a z-axis rotation by pi times the exponent, conjugated onto
the Hadamard axis by y-axis rotations of a quarter pi. -/
noncomputable def hpow_decomposition (t : ℝ) : List BraketGate1 :=
  [BraketGate1.ry (-(Real.pi / 4)), BraketGate1.rz (Real.pi * t),
   BraketGate1.ry (Real.pi / 4)]

/-- Modelled from the spec: the circuit unitary of an emitted single-qubit
Braket program. -/
noncomputable def braket_circuit1_unitary (c : List BraketGate1) :
    Matrix (Fin 2) (Fin 2) ℂ :=
  c.foldl (fun u g => braket_gate1_unitary g * u) 1

end Qbraid

namespace Qbraid

/-! ## Theorems for the wrapper facade -/

/-- C1: transpile called with a conversion type equal to the wrapper's own
package returns the wrapped source program itself, leaves the wrapper
untouched, and invokes neither the importer nor the exporter, whatever
those helpers are. -/
theorem transpile_identity_shortcut {α γ ε : Type}
    (convert_to_cirq : α → Except ε (γ × String))
    (convert_from_cirq : γ → String → Except ε α)
    (supported_program_types : List String)
    (program_type_name : α → String)
    (w : QuantumProgramWrapper α) :
    transpile convert_to_cirq convert_from_cirq supported_program_types
        program_type_name w w.package
      = (Except.ok w.program, w, []) := by
  simp [transpile]

/-- C5: when the conversion type differs from the wrapper's package and is
not among the supported program types, transpile fails with the
unsupported-program error naming the requested type and the supported
types, and makes no importer or exporter call at all. -/
theorem transpile_unsupported_error {α γ ε : Type}
    (convert_to_cirq : α → Except ε (γ × String))
    (convert_from_cirq : γ → String → Except ε α)
    (supported_program_types : List String)
    (program_type_name : α → String)
    (w : QuantumProgramWrapper α) (conversion_type : String)
    (hpkg : conversion_type ≠ w.package)
    (hsup : conversion_type ∉ supported_program_types) :
    transpile convert_to_cirq convert_from_cirq supported_program_types
        program_type_name w conversion_type
      = (Except.error
          (TranspileError.unsupportedProgram conversion_type supported_program_types),
         w, []) := by
  simp [transpile, hpkg, hsup]

/-- Closed instance of C5: a wrapper of package qiskit asked for target
pyquil, with only cirq and braket supported, fails with the
unsupported-program error and an empty call trace. -/
theorem transpile_unsupported_error_witness :
    transpile (fun n : Nat => (Except.ok (n, "cirq") : Except Unit (Nat × String)))
        (fun n _ => Except.ok n) ["cirq", "braket"] (fun _ => "QuantumCircuit")
        ⟨0, [], 0, 0, 0, [], [], "qiskit"⟩ "pyquil"
      = (Except.error (TranspileError.unsupportedProgram "pyquil" ["cirq", "braket"]),
         ⟨0, [], 0, 0, 0, [], [], "qiskit"⟩, []) :=
  transpile_unsupported_error _ _ _ _ _ _ (by decide) (by decide)

/-- C6: for a supported conversion type different from the wrapper's own
package, an importer failure makes transpile raise the to-cirq conversion
error, which names the source program's type, embeds the source program
(hence the offending construct) and wraps the underlying cause; an
exporter failure makes it raise the from-cirq conversion error, which
names the target type and wraps the cause. -/
theorem transpile_conversion_error {α γ ε : Type}
    (convert_to_cirq : α → Except ε (γ × String))
    (convert_from_cirq : γ → String → Except ε α)
    (supported_program_types : List String)
    (program_type_name : α → String)
    (w : QuantumProgramWrapper α) (conversion_type : String)
    (hpkg : conversion_type ≠ w.package)
    (hsup : conversion_type ∈ supported_program_types) :
    (∀ e, convert_to_cirq w.program = Except.error e →
      (transpile convert_to_cirq convert_from_cirq supported_program_types
          program_type_name w conversion_type).1
        = Except.error (TranspileError.circuitConversionToCirq
            (program_type_name w.program) w.program supported_program_types e))
    ∧ (∀ c s e, convert_to_cirq w.program = Except.ok (c, s) →
        convert_from_cirq c conversion_type = Except.error e →
      (transpile convert_to_cirq convert_from_cirq supported_program_types
          program_type_name w conversion_type).1
        = Except.error
            (TranspileError.circuitConversionFromCirq conversion_type e)) := by
  constructor
  · intro e he
    simp [transpile, hpkg, hsup, he]
  · intro c s e hc hcf
    simp [transpile, hpkg, hsup, hc, hcf]

/-- Closed instance of C6: with an importer that raises on the wrapped
program, transpile surfaces the to-cirq conversion error carrying the
program type name, the program, the supported types and the cause. -/
theorem transpile_conversion_error_witness :
    (transpile (fun _ : Nat => (Except.error 7 : Except Nat (Nat × String)))
        (fun n _ => Except.ok n) ["cirq", "braket"] (fun _ => "Program")
        ⟨5, [], 0, 0, 0, [], [], "pyquil"⟩ "braket").1
      = Except.error (TranspileError.circuitConversionToCirq
          "Program" 5 ["cirq", "braket"] 7) :=
  (transpile_conversion_error _ _ _ _ _ _ (by decide) (by decide)).1 7 rfl

/-- C7: transpile never mutates the wrapper: in every branch, normal or
raising, the wrapper's field state after the call is identical, field by
field, to the state before it.  The return type Except separates the two
outcomes, so a raising call carries only the error and no partial target
program. -/
theorem transpile_frame {α γ ε : Type}
    (convert_to_cirq : α → Except ε (γ × String))
    (convert_from_cirq : γ → String → Except ε α)
    (supported_program_types : List String)
    (program_type_name : α → String)
    (w : QuantumProgramWrapper α) (conversion_type : String) :
    (transpile convert_to_cirq convert_from_cirq supported_program_types
        program_type_name w conversion_type).2.1.program = w.program
    ∧ (transpile convert_to_cirq convert_from_cirq supported_program_types
        program_type_name w conversion_type).2.1.qubits = w.qubits
    ∧ (transpile convert_to_cirq convert_from_cirq supported_program_types
        program_type_name w conversion_type).2.1.num_qubits = w.num_qubits
    ∧ (transpile convert_to_cirq convert_from_cirq supported_program_types
        program_type_name w conversion_type).2.1.num_clbits = w.num_clbits
    ∧ (transpile convert_to_cirq convert_from_cirq supported_program_types
        program_type_name w conversion_type).2.1.depth = w.depth
    ∧ (transpile convert_to_cirq convert_from_cirq supported_program_types
        program_type_name w conversion_type).2.1.params = w.params
    ∧ (transpile convert_to_cirq convert_from_cirq supported_program_types
        program_type_name w conversion_type).2.1.input_param_mapping
        = w.input_param_mapping
    ∧ (transpile convert_to_cirq convert_from_cirq supported_program_types
        program_type_name w conversion_type).2.1.package = w.package := by
  have hw : (transpile convert_to_cirq convert_from_cirq supported_program_types
      program_type_name w conversion_type).2.1 = w := by
    unfold transpile
    split
    · rfl
    split
    · cases convert_to_cirq w.program with
      | error e => rfl
      | ok p =>
        cases p with
        | mk c s => cases h2 : convert_from_cirq c conversion_type <;> simp [h2]
    · rfl
  rw [hw]
  exact ⟨rfl, rfl, rfl, rfl, rfl, rfl, rfl, rfl⟩

/-! ## Theorems for the QASM tie-break -/

/-- C4: with zero global shift the emitted instruction is a named
fixed-angle gate exactly when the exponent is one of 1/4, -1/4, 1/2, -1/2,
1 (each mapped to its gate), every other exponent yields the parametric
phase gate p, and any nonzero global shift yields the parametric rotation
rz. -/
theorem zpow_qasm_tiebreak (g e : ℚ) :
    (QasmZGate.isNamed (zpow_qasm 0 e) = true
      ↔ (e = 1/4 ∨ e = -(1/4) ∨ e = 1/2 ∨ e = -(1/2) ∨ e = 1))
    ∧ (¬(e = 1/4 ∨ e = -(1/4) ∨ e = 1/2 ∨ e = -(1/2) ∨ e = 1) →
        zpow_qasm 0 e = QasmZGate.p e)
    ∧ (g ≠ 0 → zpow_qasm g e = QasmZGate.rz e) := by
  refine ⟨?_, ?_, ?_⟩
  · constructor
    · intro h
      by_contra hall
      push_neg at hall
      obtain ⟨h1, h2, h3, h4, h5⟩ := hall
      unfold zpow_qasm at h
      rw [if_pos rfl, if_neg h1, if_neg h2, if_neg h3, if_neg h4, if_neg h5] at h
      simp [QasmZGate.isNamed] at h
    · rintro (rfl | rfl | rfl | rfl | rfl) <;>
        norm_num [zpow_qasm, QasmZGate.isNamed]
  · intro hall
    push_neg at hall
    obtain ⟨h1, h2, h3, h4, h5⟩ := hall
    unfold zpow_qasm
    rw [if_pos rfl, if_neg h1, if_neg h2, if_neg h3, if_neg h4, if_neg h5]
  · intro hg
    simp [zpow_qasm, hg]

/-- Closed instance of C4: exponent 3/8 with zero shift yields the
parametric phase gate, and a shift of 1 yields rz. -/
theorem zpow_qasm_tiebreak_witness :
    zpow_qasm 0 (3/8) = QasmZGate.p (3/8) ∧ zpow_qasm 1 (3/8) = QasmZGate.rz (3/8) :=
  ⟨(zpow_qasm_tiebreak 0 (3/8)).2.1 (by norm_num),
   (zpow_qasm_tiebreak 1 (3/8)).2.2 (by norm_num)⟩

/-! ## Theorem for the benchmarking harness -/

/-- C8: execute_test is total and never propagates an exception of the
conversion function or the equivalence check; its value is always 0 or 1,
and it is 0 exactly when the conversion function returns normally and the
returned circuit passes the circuits_allclose check called with
strict_gphase set to false. -/
theorem execute_test_total {α β ε : Type} (conversion_function : α → Except ε β)
    (circuits_allclose : α → β → Bool → Except ε Bool) (qiskit_circuit : α) :
    (execute_test conversion_function circuits_allclose qiskit_circuit = 0
      ∨ execute_test conversion_function circuits_allclose qiskit_circuit = 1)
    ∧ (execute_test conversion_function circuits_allclose qiskit_circuit = 0
      ↔ ∃ braket_circuit, conversion_function qiskit_circuit = Except.ok braket_circuit
          ∧ circuits_allclose qiskit_circuit braket_circuit false = Except.ok true) := by
  unfold execute_test
  cases hc : conversion_function qiskit_circuit with
  | error e => simp
  | ok b =>
    cases ha : circuits_allclose qiskit_circuit b false with
    | error e => simp [ha]
    | ok v => cases v <;> simp [ha]

/-! ## Theorems for the gate unitaries -/

/-- Conjugating a purely imaginary exponential negates the exponent. -/
theorem conj_exp_I_mul (x : ℝ) :
    (starRingEnd ℂ) (Complex.exp (Complex.I * x)) = Complex.exp (-(Complex.I * x)) := by
  rw [← Complex.exp_conj]
  congr 1
  simp [map_mul, Complex.conj_I, Complex.conj_ofReal]

/-- A purely imaginary exponential times its reciprocal exponential is 1. -/
theorem exp_I_mul_mul_exp_neg (x : ℝ) :
    Complex.exp (Complex.I * x) * Complex.exp (-(Complex.I * x)) = 1 := by
  rw [← Complex.exp_add, add_neg_cancel, Complex.exp_zero]

/-- Variant of the conjugation rule for an exponent that is a sum of two
real coercions. -/
theorem conj_exp_I_mul_add (x y : ℝ) :
    (starRingEnd ℂ) (Complex.exp (Complex.I * ((x : ℂ) + (y : ℂ))))
      = Complex.exp (-(Complex.I * ((x : ℂ) + (y : ℂ)))) := by
  rw [← Complex.exp_conj]
  congr 1
  simp [map_mul, map_add, Complex.conj_I, Complex.conj_ofReal]

/-- Variant of the reciprocal rule for an exponent that is a sum of two
real coercions. -/
theorem exp_I_mul_add_mul_exp_neg (x y : ℝ) :
    Complex.exp (Complex.I * ((x : ℂ) + (y : ℂ)))
      * Complex.exp (-(Complex.I * ((x : ℂ) + (y : ℂ)))) = 1 := by
  rw [← Complex.exp_add, add_neg_cancel, Complex.exp_zero]

/-- C9: for every real theta the unitary of the gate returned by rzz is
exactly the diagonal matrix diag(exp(-i theta/2), exp(i theta/2),
exp(i theta/2), exp(-i theta/2)), i.e. the RZZGate unitary; in particular
the special-cased identity gate at theta = 0 and TwoQubitDiagonalGate at
theta = 2 pi agree with RZZGate(theta) with global phase factor 1. -/
theorem rzz_unitary_eq_rzzgate (theta : ℝ) :
    rzz_unitary theta = RZZGate_unitary theta
    ∧ rzz_unitary theta
      = Matrix.diagonal ![Complex.exp (-(Complex.I * theta / 2)),
          Complex.exp (Complex.I * theta / 2), Complex.exp (Complex.I * theta / 2),
          Complex.exp (-(Complex.I * theta / 2))] := by
  have hdiag : RZZGate_unitary theta
      = Matrix.diagonal ![Complex.exp (-(Complex.I * theta / 2)),
          Complex.exp (Complex.I * theta / 2), Complex.exp (Complex.I * theta / 2),
          Complex.exp (-(Complex.I * theta / 2))] := by
    ext i j
    fin_cases i <;> fin_cases j <;>
      simp [RZZGate_unitary, Matrix.diagonal, Matrix.vecHead, Matrix.vecTail]
  have hmain : rzz_unitary theta = RZZGate_unitary theta := by
    unfold rzz_unitary
    split_ifs with h0 h2
    · subst h0
      symm
      ext i j
      fin_cases i <;> fin_cases j <;>
        simp [RZZGate_unitary, IdentityGate2_unitary, Matrix.one_apply,
          Complex.ofReal_zero, mul_zero, zero_div, neg_zero, Complex.exp_zero,
          Matrix.vecHead, Matrix.vecTail]
    · subst h2
      have hA : Complex.exp (Complex.I * (2 * (Real.pi : ℂ)) / 2) = -1 := by
        rw [show Complex.I * (2 * (Real.pi : ℂ)) / 2 = (Real.pi : ℂ) * Complex.I by ring]
        exact Complex.exp_pi_mul_I
      have hB : Complex.exp (-(Complex.I * (2 * (Real.pi : ℂ)) / 2)) = -1 := by
        rw [Complex.exp_neg, hA]
        norm_num
      have hC : Complex.exp (Complex.I * ((Real.pi : ℝ) : ℂ)) = -1 := by
        rw [mul_comm]
        exact Complex.exp_pi_mul_I
      ext i j
      fin_cases i <;> fin_cases j <;>
        simp [TwoQubitDiagonalGate_unitary, RZZGate_unitary, Matrix.diagonal,
          Matrix.vecHead, Matrix.vecTail, hA, hB, hC]
    · rfl
  exact ⟨hmain, hmain.trans hdiag⟩

/-- The U3 unitary times its conjugate transpose is the identity. -/
theorem U3_mul_conjTranspose (t p l : ℝ) :
    U3Gate_unitary t p l * (U3Gate_unitary t p l).conjTranspose = 1 := by
  have hpy : (Real.cos (t / 2) : ℂ) * (Real.cos (t / 2) : ℂ)
      + (Real.sin (t / 2) : ℂ) * (Real.sin (t / 2) : ℂ) = 1 := by
    have h : Real.cos (t / 2) * Real.cos (t / 2)
        + Real.sin (t / 2) * Real.sin (t / 2) = 1 := by
      nlinarith [Real.sin_sq_add_cos_sq (t / 2)]
    exact_mod_cast h
  have hl := exp_I_mul_mul_exp_neg l
  have hp := exp_I_mul_mul_exp_neg p
  have hpl := exp_I_mul_add_mul_exp_neg p l
  have hadd : Complex.exp (Complex.I * ((p : ℂ) + (l : ℂ)))
      = Complex.exp (Complex.I * (p : ℂ)) * Complex.exp (Complex.I * (l : ℂ)) := by
    rw [← Complex.exp_add]
    congr 1
    ring
  have haddneg : Complex.exp (-(Complex.I * ((p : ℂ) + (l : ℂ))))
      = Complex.exp (-(Complex.I * (p : ℂ))) * Complex.exp (-(Complex.I * (l : ℂ))) := by
    rw [← Complex.exp_add]
    congr 1
    ring
  have hct : (U3Gate_unitary t p l).conjTranspose
      = !![(Real.cos (t / 2) : ℂ),
           Complex.exp (-(Complex.I * (p : ℂ))) * (Real.sin (t / 2) : ℂ);
           -Complex.exp (-(Complex.I * (l : ℂ))) * (Real.sin (t / 2) : ℂ),
           Complex.exp (-(Complex.I * ((p : ℂ) + (l : ℂ)))) * (Real.cos (t / 2) : ℂ)] := by
    ext i j
    fin_cases i <;> fin_cases j <;>
      simp only [U3Gate_unitary, Matrix.conjTranspose_apply, Matrix.cons_val',
        Matrix.cons_val_zero, Matrix.cons_val_one, Matrix.head_cons,
        Matrix.empty_val', Matrix.cons_val_fin_one, Matrix.head_fin_const,
        Fin.zero_eta, Fin.mk_one, Fin.isValue, Matrix.of_apply,
        Complex.star_def, map_mul, map_neg, Complex.conj_ofReal, conj_exp_I_mul,
        conj_exp_I_mul_add]
  rw [hct, show U3Gate_unitary t p l
      = !![(Real.cos (t / 2) : ℂ),
           -Complex.exp (Complex.I * (l : ℂ)) * (Real.sin (t / 2) : ℂ);
           Complex.exp (Complex.I * (p : ℂ)) * (Real.sin (t / 2) : ℂ),
           Complex.exp (Complex.I * ((p : ℂ) + (l : ℂ))) * (Real.cos (t / 2) : ℂ)]
    from rfl, Matrix.mul_fin_two, Matrix.one_fin_two]
  ext i j
  fin_cases i <;> fin_cases j <;>
    simp only [Matrix.cons_val', Matrix.cons_val_zero, Matrix.cons_val_one,
      Matrix.head_cons, Matrix.empty_val', Matrix.cons_val_fin_one,
      Matrix.head_fin_const, Fin.zero_eta, Fin.mk_one, Fin.isValue,
      Matrix.of_apply]
  · linear_combination (Real.sin (t / 2) : ℂ) * (Real.sin (t / 2) : ℂ) * hl + hpy
  · linear_combination
      (-(Complex.exp (Complex.I * (l : ℂ)) * (Real.sin (t / 2) : ℂ)
          * (Real.cos (t / 2) : ℂ))) * haddneg
      + (-((Real.cos (t / 2) : ℂ) * Complex.exp (-(Complex.I * (p : ℂ)))
          * (Real.sin (t / 2) : ℂ))) * hl
  · linear_combination
      (-((Real.cos (t / 2) : ℂ) * Complex.exp (-(Complex.I * (l : ℂ)))
          * (Real.sin (t / 2) : ℂ))) * hadd
      + (-(Complex.exp (Complex.I * (p : ℂ)) * (Real.cos (t / 2) : ℂ)
          * (Real.sin (t / 2) : ℂ))) * hl
  · linear_combination (Real.sin (t / 2) : ℂ) * (Real.sin (t / 2) : ℂ) * hp
      + (Real.cos (t / 2) : ℂ) * (Real.cos (t / 2) : ℂ) * hpl + hpy

/-- C10: the U2 unitary is the theta = pi/2 specialization of the U3
unitary, entrywise and exactly; and both unitaries satisfy
U times its conjugate transpose equals the identity, for all real
arguments. -/
theorem U2_eq_U3_and_unitary (theta phi lam : ℝ) :
    U2Gate_unitary phi lam = U3Gate_unitary (Real.pi / 2) phi lam
    ∧ U3Gate_unitary theta phi lam * (U3Gate_unitary theta phi lam).conjTranspose = 1
    ∧ U2Gate_unitary phi lam * (U2Gate_unitary phi lam).conjTranspose = 1 := by
  have hs2 : Real.sqrt 2 * Real.sqrt 2 = 2 := Real.mul_self_sqrt (by norm_num)
  have hs0 : Real.sqrt 2 ≠ 0 := by positivity
  have hinv : isqrt2 = Real.sqrt 2 / 2 := by
    unfold isqrt2
    field_simp
  have hq : Real.pi / 2 / 2 = Real.pi / 4 := by ring
  have heq : U2Gate_unitary phi lam = U3Gate_unitary (Real.pi / 2) phi lam := by
    unfold U2Gate_unitary U3Gate_unitary
    rw [hq, Real.cos_pi_div_four, Real.sin_pi_div_four, hinv]
  refine ⟨heq, U3_mul_conjTranspose theta phi lam, ?_⟩
  rw [heq]
  exact U3_mul_conjTranspose (Real.pi / 2) phi lam

/-! ## Theorems for the conversion scenarios -/

/-- C2: for any two distinct native qubit objects, importing the Bell
circuit H(q0); CNOT(q0, q1) and exporting it to Braket yields a program
whose unitary is exactly CNOT (H tensor I), the global phase factor being
1, and equal to the canonical circuit's unitary, so the original and
converted circuits are equivalent within any tolerance. -/
theorem bell_conversion {α : Type} [DecidableEq α] (q0 q1 : α) (hq : q0 ≠ q1) :
    braket_circuit_unitary (to_braket (frontend_import (bell_circuit q0 q1) []).1)
      = CNOT_M * kron2 H_M 1
    ∧ braket_circuit_unitary (to_braket (frontend_import (bell_circuit q0 q1) []).1)
      = canon_circuit_unitary (frontend_import (bell_circuit q0 q1) []).1 := by
  have himp : (frontend_import (bell_circuit q0 q1) []).1
      = [CanonGate.h 0, CanonGate.cnot 0 1] := by
    simp [bell_circuit, frontend_import, qindex, hq]
  rw [himp]
  constructor
  · simp [to_braket, to_braket_gate, braket_circuit_unitary, braket_gate_unitary]
  · simp [to_braket, to_braket_gate, braket_circuit_unitary, braket_gate_unitary,
      canon_circuit_unitary, canon_gate_unitary]

/-- Closed instance of C2 at the qubit objects LineQubit(1) and
LineQubit(6) of the test, modelled by the natural numbers 1 and 6. -/
theorem bell_conversion_witness :
    braket_circuit_unitary (to_braket (frontend_import (bell_circuit (1 : ℕ) 6) []).1)
      = CNOT_M * kron2 H_M 1 :=
  (bell_conversion 1 6 (by decide)).1

/-- The isqrt2 constant equals sqrt 2 / 2. -/
theorem isqrt2_eq : isqrt2 = Real.sqrt 2 / 2 := by
  unfold isqrt2
  field_simp

/-- The emitted decomposition of a fractional Hadamard power multiplies
out to exactly the HPowGate unitary stripped of its global phase. -/
theorem hpow_decomposition_exact (t : ℝ) :
    braket_circuit1_unitary (hpow_decomposition t)
      = Complex.exp (-(Complex.I * ((Real.pi * t / 2 : ℝ) : ℂ)))
          • HPowGate_unitary t := by
  have hc48 : Real.cos (Real.pi / 4 / 2) = Real.cos (Real.pi / 8) := by
    rw [show Real.pi / 4 / 2 = Real.pi / 8 by ring]
  have hs48 : Real.sin (Real.pi / 4 / 2) = Real.sin (Real.pi / 8) := by
    rw [show Real.pi / 4 / 2 = Real.pi / 8 by ring]
  have hcneg : Real.cos (-(Real.pi / 4) / 2) = Real.cos (Real.pi / 8) := by
    rw [show -(Real.pi / 4) / 2 = -(Real.pi / 8) by ring, Real.cos_neg]
  have hsneg : Real.sin (-(Real.pi / 4) / 2) = -Real.sin (Real.pi / 8) := by
    rw [show -(Real.pi / 4) / 2 = -(Real.pi / 8) by ring, Real.sin_neg]
  have hpyth : (Real.cos (Real.pi / 8) : ℂ) ^ 2 + (Real.sin (Real.pi / 8) : ℂ) ^ 2
      = 1 := by
    have h := Real.sin_sq_add_cos_sq (Real.pi / 8)
    have h2 : Real.cos (Real.pi / 8) ^ 2 + Real.sin (Real.pi / 8) ^ 2 = 1 := by
      linarith
    exact_mod_cast h2
  have hc2 : (Real.cos (Real.pi / 8) : ℂ) ^ 2 - (Real.sin (Real.pi / 8) : ℂ) ^ 2
      = (isqrt2 : ℂ) := by
    have h1 : Real.cos (Real.pi / 8) ^ 2 - Real.sin (Real.pi / 8) ^ 2 = isqrt2 := by
      rw [← Real.cos_two_mul', show 2 * (Real.pi / 8) = Real.pi / 4 by ring,
        Real.cos_pi_div_four, isqrt2_eq]
    exact_mod_cast h1
  have hs2c : 2 * (Real.sin (Real.pi / 8) : ℂ) * (Real.cos (Real.pi / 8) : ℂ)
      = (isqrt2 : ℂ) := by
    have h1 : 2 * Real.sin (Real.pi / 8) * Real.cos (Real.pi / 8) = isqrt2 := by
      rw [← Real.sin_two_mul, show 2 * (Real.pi / 8) = Real.pi / 4 by ring,
        Real.sin_pi_div_four, isqrt2_eq]
    exact_mod_cast h1
  have hEm : Complex.exp (-(Complex.I * ((Real.pi * t : ℝ) : ℂ) / 2))
      = (Real.cos (Real.pi * t / 2) : ℂ)
        - (Real.sin (Real.pi * t / 2) : ℂ) * Complex.I := by
    rw [show -(Complex.I * ((Real.pi * t : ℝ) : ℂ) / 2)
        = ((-(Real.pi * t / 2) : ℝ) : ℂ) * Complex.I by push_cast; ring,
      Complex.exp_mul_I]
    rw [← Complex.ofReal_cos, ← Complex.ofReal_sin, Real.cos_neg, Real.sin_neg]
    push_cast
    ring
  have hEp : Complex.exp (Complex.I * ((Real.pi * t : ℝ) : ℂ) / 2)
      = (Real.cos (Real.pi * t / 2) : ℂ)
        + (Real.sin (Real.pi * t / 2) : ℂ) * Complex.I := by
    rw [show Complex.I * ((Real.pi * t : ℝ) : ℂ) / 2
        = (((Real.pi * t / 2) : ℝ) : ℂ) * Complex.I by push_cast; ring,
      Complex.exp_mul_I]
    rw [← Complex.ofReal_cos, ← Complex.ofReal_sin]
  have hphase : Complex.exp (-(Complex.I * ((Real.pi * t / 2 : ℝ) : ℂ)))
      * Complex.exp (Complex.I * ((Real.pi * t / 2 : ℝ) : ℂ)) = 1 := by
    rw [mul_comm]
    exact exp_I_mul_mul_exp_neg (Real.pi * t / 2)
  have hT : (Real.cos (Real.pi * t / 2) : ℂ) • (1 : Matrix (Fin 2) (Fin 2) ℂ)
        - (Complex.I * ((Real.sin (Real.pi * t / 2) : ℝ) : ℂ)) • H_M
      = !![(Real.cos (Real.pi * t / 2) : ℂ)
            - Complex.I * (Real.sin (Real.pi * t / 2) : ℂ) * (isqrt2 : ℂ),
           -(Complex.I * (Real.sin (Real.pi * t / 2) : ℂ) * (isqrt2 : ℂ));
           -(Complex.I * (Real.sin (Real.pi * t / 2) : ℂ) * (isqrt2 : ℂ)),
           (Real.cos (Real.pi * t / 2) : ℂ)
            + Complex.I * (Real.sin (Real.pi * t / 2) : ℂ) * (isqrt2 : ℂ)] := by
    unfold H_M
    ext i j
    fin_cases i <;> fin_cases j <;>
      simp [Matrix.smul_apply, Matrix.sub_apply, Matrix.one_apply, smul_eq_mul]
  have hRy1 : Ry_M (Real.pi / 4)
      = !![(Real.cos (Real.pi / 8) : ℂ), -(Real.sin (Real.pi / 8) : ℂ);
           (Real.sin (Real.pi / 8) : ℂ), (Real.cos (Real.pi / 8) : ℂ)] := by
    unfold Ry_M
    rw [hc48, hs48]
  have hRy2 : Ry_M (-(Real.pi / 4))
      = !![(Real.cos (Real.pi / 8) : ℂ), (Real.sin (Real.pi / 8) : ℂ);
           -(Real.sin (Real.pi / 8) : ℂ), (Real.cos (Real.pi / 8) : ℂ)] := by
    unfold Ry_M
    rw [hcneg, hsneg]
    ext i j
    fin_cases i <;> fin_cases j <;> simp
  have hRz : Rz_M (Real.pi * t)
      = !![(Real.cos (Real.pi * t / 2) : ℂ)
            - (Real.sin (Real.pi * t / 2) : ℂ) * Complex.I, 0;
           0, (Real.cos (Real.pi * t / 2) : ℂ)
            + (Real.sin (Real.pi * t / 2) : ℂ) * Complex.I] := by
    unfold Rz_M
    rw [hEm, hEp]
  have hfold : braket_circuit1_unitary (hpow_decomposition t)
      = Ry_M (Real.pi / 4) * (Rz_M (Real.pi * t) * (Ry_M (-(Real.pi / 4)) * 1)) :=
    rfl
  rw [hfold, mul_one]
  unfold HPowGate_unitary
  rw [smul_smul, hphase, one_smul, hT, hRy1, hRy2, hRz, Matrix.mul_fin_two,
    Matrix.mul_fin_two]
  ext i j
  fin_cases i <;> fin_cases j <;>
    simp only [Matrix.of_apply, Matrix.cons_val', Matrix.cons_val_zero,
      Matrix.cons_val_one, Matrix.head_cons, Matrix.empty_val',
      Matrix.cons_val_fin_one, Matrix.head_fin_const, Fin.zero_eta, Fin.mk_one,
      Fin.isValue]
  · linear_combination (Real.cos (Real.pi * t / 2) : ℂ) * hpyth
      - (Real.sin (Real.pi * t / 2) : ℂ) * Complex.I * hc2
  · linear_combination (-((Real.sin (Real.pi * t / 2) : ℂ) * Complex.I)) * hs2c
  · linear_combination (-((Real.sin (Real.pi * t / 2) : ℂ) * Complex.I)) * hs2c
  · linear_combination (Real.cos (Real.pi * t / 2) : ℂ) * hpyth
      + (Real.sin (Real.pi * t / 2) : ℂ) * Complex.I * hc2

/-- C3: the single-qubit circuit holding the fractional-power gate
HPowGate with exponent -1/14 is exported through the decomposition path:
the emitted program has at least one gate, and its unitary equals the
original gate's unitary times a unit-modulus global phase, hence matches
it within any tolerance ignoring global phase. -/
theorem hpow_uncommon_gate_conversion :
    1 ≤ (hpow_decomposition (-(1 / 14) : ℝ)).length
    ∧ ∃ c : ℂ, Complex.abs c = 1
        ∧ braket_circuit1_unitary (hpow_decomposition (-(1 / 14) : ℝ))
          = c • HPowGate_unitary (-(1 / 14) : ℝ) := by
  refine ⟨by norm_num [hpow_decomposition], ?_⟩
  refine ⟨Complex.exp (-(Complex.I * ((Real.pi * (-(1 / 14)) / 2 : ℝ) : ℂ))), ?_,
    hpow_decomposition_exact (-(1 / 14))⟩
  rw [Complex.abs_exp]
  simp [Complex.mul_re, Complex.I_re, Complex.I_im, Complex.ofReal_re,
    Complex.ofReal_im, Real.exp_zero]

end Qbraid
